import Mathlib

/-!
Verification of the command execution gate of the CommandAI repository
(`src/command/executor.py`, class `CommandExecutor`).

The executor is embedded shallowly:

* the filesystem query `os.path.isdir` and the spawned child process are
  modelled by an oracle structure `Host`;
* `shlex.split(command, posix=False)` is modelled by a character-level
  state machine `shlexRun` (`none` models the `ValueError("No closing
  quotation")` that the CPython shlex raises at end of input inside a
  quoted token);
* `os.path.isabs`, `os.path.join` and `os.path.normpath` are embedded
  with their POSIX semantics;
* the four danger regular expressions are embedded as direct greedy
  matchers, which is equivalent here because in each pattern a greedy
  atom (`\s+` or a character class with `+`) is never followed by an
  atom that can match a character the greedy atom also matches;
* `execute_command` returns `Except String Outcome`: `.ok` is a normal
  return, `.error` models an exception escaping to the caller.
-/

/-- The result triple returned by `CommandExecutor.execute_command`:
`(output, success, new_directory)`. -/
structure Outcome where
  message : String
  succeeded : Bool
  newWorkingDirectory : Option String
deriving Repr, DecidableEq

/-- Result of the host actually running a command (the `subprocess` part
of `execute_command`): normal completion with a return code and captured
streams, a 30-second timeout (`subprocess.TimeoutExpired`), or a failure
to launch at all (any other `Exception`, carrying `str(e)`). -/
inductive HostResult where
  | completed (returncode : Int) (stdout stderr : String)
  | timedOut
  | launchFailure (errMsg : String)
deriving Repr, DecidableEq

/-- Oracle for the two effects of the executor: `os.path.isdir` and
spawning a process (`run command cwd`). -/
structure Host where
  isDir : String → Bool
  run : String → String → HostResult

/-! ### shlex.split with posix=False

CPython `shlex` in non-posix mode with `whitespace_split=True`:
whitespace separates tokens; a token whose first character is a quote
character runs to the matching quote, which is kept in the token, and is
emitted immediately at the closing quote; a quote character in the middle
of a word is an ordinary character; end of input inside a quoted token
raises `ValueError("No closing quotation")`. -/

/-- The shlex `whitespace` attribute: space, tab, carriage return, newline. -/
def shlexWS (c : Char) : Bool :=
  c = ' ' || c = '\t' || c = '\r' || c = '\n'

/-- The shlex `quotes` attribute: single and double quote. -/
def isQuoteChar (c : Char) : Bool :=
  c = '"' || c = '\''

/-- Lexer states of the shlex token reader: between tokens (whitespace),
inside an ordinary word, or inside a quoted token opened with `q`. -/
inductive LexState where
  | ws
  | word (tok : List Char)
  | quoted (q : Char) (tok : List Char)

/-- The shlex token-reader loop, non-posix, `whitespace_split=True`.
`none` models the `ValueError` raised at end of input in a quoted state. -/
def shlexRun : List Char → LexState → Option (List (List Char))
  | [], .ws => some []
  | [], .word tok => some [tok]
  | [], .quoted _ _ => none
  | c :: rest, .ws =>
      if shlexWS c then shlexRun rest .ws
      else if isQuoteChar c then shlexRun rest (.quoted c [c])
      else shlexRun rest (.word [c])
  | c :: rest, .word tok =>
      if shlexWS c then (shlexRun rest .ws).map (tok :: ·)
      else shlexRun rest (.word (tok ++ [c]))
  | c :: rest, .quoted q tok =>
      if c = q then (shlexRun rest .ws).map ((tok ++ [c]) :: ·)
      else shlexRun rest (.quoted q (tok ++ [c]))

/-- Embedding of `shlex.split(command, posix=False)`; `none` models the raised
`ValueError("No closing quotation")`. -/
def shlex_split (s : String) : Option (List String) :=
  (shlexRun s.toList .ws).map (·.map fun l => String.mk l)

/-! ### String primitives

The Python functions `str.lower`, `str.strip`, `str.split`, `str.startswith` and
`str.endswith` are embedded by structurally recursive functions on the
character list (restricted to ASCII, which is all the fixed executor
strings use). -/

/-- Python `str.lower` (ASCII). -/
def strLower (s : String) : String :=
  String.mk (s.toList.map Char.toLower)

/-- ASCII whitespace: the `\s` of Python `re` and the character set
stripped by `str.strip()`. -/
def isSpaceChar (c : Char) : Bool :=
  c = ' ' || c = '\t' || c = '\n' || c = '\r' || c = '\x0b' || c = '\x0c'

/-- Python `str.strip()` with no argument: remove leading and trailing
whitespace. -/
def strTrim (s : String) : String :=
  String.mk (((s.toList.dropWhile isSpaceChar).reverse.dropWhile
    isSpaceChar).reverse)

/-- Python `s.startswith(pre)`. -/
def strStartsWith (s pre : String) : Bool :=
  pre.toList.isPrefixOf s.toList

/-- Python `s.endswith(suf)`. -/
def strEndsWith (s suf : String) : Bool :=
  suf.toList.isSuffixOf s.toList

/-- Python `str.split(sep)` for a one-character separator. -/
def splitChar (sep : Char) : List Char → List (List Char)
  | [] => [[]]
  | c :: rest =>
    match splitChar sep rest with
    | [] => [[]]
    | t :: ts => if c = sep then [] :: t :: ts else (c :: t) :: ts

/-! ### os.path (POSIX semantics) -/

/-- Embedding of `os.path.isabs` (posixpath): starts with a slash. -/
def isabs (p : String) : Bool := strStartsWith p "/"

/-- Embedding of `os.path.join(a, b)` (posixpath), two arguments. -/
def pjoin (a b : String) : String :=
  if strStartsWith b "/" then b
  else if a = "" ∨ strEndsWith a "/" then a ++ b
  else a ++ "/" ++ b

/-- One step of the component loop of posixpath.normpath. -/
def normpathStep (initialSlashes : Nat) (acc : List String) (comp : String) :
    List String :=
  if comp = "" || comp = "." then acc
  else if comp ≠ ".." || (initialSlashes = 0 && acc = []) ||
          (acc ≠ [] && acc.getLast? = some "..") then acc ++ [comp]
  else if acc ≠ [] then acc.dropLast
  else acc

/-- Embedding of `os.path.normpath` (posixpath): purely lexical resolution of `.` and
`..` segments, collapsing repeated slashes, preserving a leading `//`. -/
def normpath (path : String) : String :=
  if path = "" then "."
  else
    let initialSlashes : Nat :=
      if strStartsWith path "/" then
        if strStartsWith path "//" && !strStartsWith path "///" then 2 else 1
      else 0
    let comps := (splitChar '/' path.toList).map String.mk
    let newComps := comps.foldl (normpathStep initialSlashes) []
    let p := String.mk (List.replicate initialSlashes '/') ++
      String.intercalate "/" newComps
    if p = "" then "." else p

/-! ### The safety filter -/

/-- Embedding of `CommandExecutor.BLOCKED_COMMANDS`. -/
def BLOCKED_COMMANDS : List String :=
  ["rm -rf /", "rmdir /s /q c:", "format", "del /f /s /q"]

/-- Substring containment on character lists (Python `needle in s`). -/
def containsSub (needle : List Char) : List Char → Bool
  | [] => needle.isPrefixOf []
  | c :: rest => needle.isPrefixOf (c :: rest) || containsSub needle rest

/-- Match a literal string at the head, returning the rest. -/
def eatLit : List Char → List Char → Option (List Char)
  | [], l => some l
  | _ :: _, [] => none
  | c :: cs, x :: xs => if x = c then eatLit cs xs else none

/-- Match `\s+` greedily at the head. -/
def eatSpaces1 : List Char → Option (List Char)
  | [] => none
  | c :: rest => if isSpaceChar c then some (rest.dropWhile isSpaceChar) else none

/-- Match a single character from a set at the head. -/
def eatOne (p : Char → Bool) : List Char → Option (List Char)
  | [] => none
  | c :: rest => if p c then some rest else none

/-- Match `[..]+` (one or more from a set) greedily at the head. -/
def eatMany1 (p : Char → Bool) : List Char → Option (List Char)
  | [] => none
  | c :: rest => if p c then some (rest.dropWhile p) else none

/-- Character set `[/\\]`. -/
def isSlashChar (c : Char) : Bool := c = '/' || c = '\\'

/-- Character set `[c-zC-Z]`. -/
def isDriveChar (c : Char) : Bool :=
  ('c' ≤ c && c ≤ 'z') || ('C' ≤ c && c ≤ 'Z')

/-- Character set `[fFqQsS]`. -/
def isDelFlagChar (c : Char) : Bool :=
  c = 'f' || c = 'F' || c = 'q' || c = 'Q' || c = 's' || c = 'S'

/-- Pattern `rm\s+-rf\s+[/\\]` matched at the head of the list. -/
def pat1At (l : List Char) : Bool :=
  (do
    let l ← eatLit "rm".toList l
    let l ← eatSpaces1 l
    let l ← eatLit "-rf".toList l
    let l ← eatSpaces1 l
    eatOne isSlashChar l).isSome

/-- Pattern `rmdir\s+/s\s+/q\s+[c-zC-Z]:` matched at the head of the list. -/
def pat2At (l : List Char) : Bool :=
  (do
    let l ← eatLit "rmdir".toList l
    let l ← eatSpaces1 l
    let l ← eatLit "/s".toList l
    let l ← eatSpaces1 l
    let l ← eatLit "/q".toList l
    let l ← eatSpaces1 l
    let l ← eatOne isDriveChar l
    eatLit ":".toList l).isSome

/-- Pattern `format\s+[c-zC-Z]:` matched at the head of the list. -/
def pat3At (l : List Char) : Bool :=
  (do
    let l ← eatLit "format".toList l
    let l ← eatSpaces1 l
    let l ← eatOne isDriveChar l
    eatLit ":".toList l).isSome

/-- Pattern `del\s+/[fFqQsS]+\s+[/\\]` matched at the head of the list. -/
def pat4At (l : List Char) : Bool :=
  (do
    let l ← eatLit "del".toList l
    let l ← eatSpaces1 l
    let l ← eatLit "/".toList l
    let l ← eatMany1 isDelFlagChar l
    let l ← eatSpaces1 l
    eatOne isSlashChar l).isSome

/-- Embedding of `re.search`: the head matcher succeeds at some position. -/
def searchAt (m : List Char → Bool) : List Char → Bool
  | [] => m []
  | c :: rest => m (c :: rest) || searchAt m rest

/-- Embedding of `CommandExecutor._is_dangerous_command`: the lowercased command
contains a blocked literal substring, or one of the four danger
patterns matches somewhere in it. -/
def is_dangerous_command (command : String) : Bool :=
  let cl := (strLower command).toList
  BLOCKED_COMMANDS.any (fun b => containsSub b.toList cl) ||
  searchAt pat1At cl || searchAt pat2At cl ||
  searchAt pat3At cl || searchAt pat4At cl

/-! ### Directory-change handling -/

/-- Embedding of `CommandExecutor.DIRECTORY_COMMANDS`. -/
def DIRECTORY_COMMANDS : List String := ["cd", "chdir", "pushd", "popd"]

/-- Embedding of `CommandExecutor._is_directory_command` applied to the token list:
nonempty and first token, lowercased, is a directory verb. -/
def is_directory_parts : List String → Bool
  | [] => false
  | p :: _ => DIRECTORY_COMMANDS.contains (strLower p)

/-- Embedding of the Python expression that removes all leading and trailing
quote characters. -/
def stripQuotes (s : String) : String :=
  String.mk (((s.toList.dropWhile isQuoteChar).reverse.dropWhile
    isQuoteChar).reverse)

/-- Resolution of a `cd` argument against the working directory:
absolute arguments are used verbatim, relative ones joined and
lexically normalized. -/
def resolve_target (current_directory target : String) : String :=
  if isabs target then target
  else normpath (pjoin current_directory target)

/-- Embedding of `CommandExecutor._handle_directory_command` on the token list.
The `try`/`except` around the body guards only pure string and path
computations, which cannot raise, so the handler is total. -/
def handle_directory_command (h : Host) (parts : List String)
    (current_directory : String) : Outcome :=
  let base_cmd := strLower (parts.headD "")
  if base_cmd = "cd" ∨ base_cmd = "chdir" then
    if parts.length = 1 then
      ⟨current_directory, true, none⟩
    else
      let target := stripQuotes (String.intercalate " " parts.tail)
      let new_dir := resolve_target current_directory target
      if h.isDir new_dir then
        ⟨"Changed directory to: " ++ new_dir, true, some new_dir⟩
      else
        ⟨"The system cannot find the path specified: " ++ target, false, none⟩
  else
    ⟨"Command " ++ base_cmd ++ " not fully implemented.", false, none⟩

/-- Embedding of `CommandExecutor.execute_command`, where `.error` models an exception
escaping to the caller: the only such path is the `ValueError` raised by
`shlex.split` inside `_is_directory_command`, which is not guarded by
any `try`. -/
def execute_command (h : Host) (command current_directory : String) :
    Except String Outcome :=
  if is_dangerous_command command then
    .ok ⟨"Command blocked for safety reasons. Please use a less destructive alternative.",
      false, none⟩
  else
    match shlex_split command with
    | none => .error "No closing quotation"
    | some parts =>
      if is_directory_parts parts then
        .ok (handle_directory_command h parts current_directory)
      else if strLower (strTrim command) = "exit" ∨ strLower (strTrim command) = "quit" then
        .ok ⟨"Use the window close button to exit the application.", true, none⟩
      else
        .ok (match h.run command current_directory with
          | .completed rc out err =>
            if rc = 0 then ⟨strTrim out, true, none⟩
            else ⟨"Error: " ++ strTrim err, false, none⟩
          | .timedOut => ⟨"Command timed out after 30 seconds", false, none⟩
          | .launchFailure m => ⟨"Failed to execute command: " ++ m, false, none⟩)

/-- A host on which no path is a directory and every process times out;
used to instantiate theorems at concrete inputs. -/
def barrenHost : Host := ⟨fun _ => false, fun _ _ => .timedOut⟩

/-- A host on which every path is a directory. -/
def allDirHost : Host := ⟨fun _ => true, fun _ _ => .timedOut⟩

/-- A host whose spawned process always completes with exit code 0 and
standard output `"Hello World\n"`. -/
def echoHost : Host := ⟨fun _ => false, fun _ _ => .completed 0 "Hello World\n" ""⟩

/-- The fixed blocked-for-safety message. -/
def blockedMessage : String :=
  "Command blocked for safety reasons. Please use a less destructive alternative."

/-! ### Theorems -/

/-- C1: every command matching a blocked literal substring or a danger
pattern (case-insensitively, on the full raw text) is answered, for every
working directory and every host, with `succeeded = false`, the fixed
blocked-for-safety message and no `newWorkingDirectory`; since the
outcome is the same for every host, no process is spawned and no
directory-change, exit or host-execution classification is consulted. -/
theorem exec_blocks_dangerous (h : Host) (command D : String)
    (hd : is_dangerous_command command = true) :
    execute_command h command D = .ok ⟨blockedMessage, false, none⟩ := by
  simp [execute_command, hd, blockedMessage]

theorem exec_blocks_dangerous_witness :
    is_dangerous_command "cd rm -rf /" = true ∧
    execute_command barrenHost "cd rm -rf /" "/home" =
      .ok ⟨blockedMessage, false, none⟩ :=
  ⟨by decide, exec_blocks_dangerous barrenHost "cd rm -rf /" "/home" (by decide)⟩

/-- Any blocked literal occurring as a substring of the lowercased raw
text makes the command dangerous. -/
theorem dangerous_of_blocked_substring (b : String) (hb : b ∈ BLOCKED_COMMANDS)
    (command : String)
    (hf : containsSub b.toList (strLower command).toList = true) :
    is_dangerous_command command = true := by
  have hany : BLOCKED_COMMANDS.any
      (fun x => containsSub x.toList (strLower command).toList) = true :=
    List.any_eq_true.mpr ⟨b, hb, hf⟩
  unfold is_dangerous_command
  simp only [hany, Bool.true_or]

/-- C10: the literal blocklist is matched as bare substrings of the
lowercased raw text, so every command whose lowercased text contains
"format" anywhere is blocked with the blocked-for-safety message,
for every working directory and host. -/
theorem exec_blocks_format_substring (h : Host) (command D : String)
    (hf : containsSub "format".toList (strLower command).toList = true) :
    execute_command h command D = .ok ⟨blockedMessage, false, none⟩ := by
  have hd : is_dangerous_command command = true :=
    dangerous_of_blocked_substring "format" (by simp [BLOCKED_COMMANDS]) command hf
  simp [execute_command, hd, blockedMessage]

theorem exec_blocks_format_substring_witness :
    containsSub "format".toList (strLower "echo information").toList = true ∧
    execute_command barrenHost "echo information" "/home" =
      .ok ⟨blockedMessage, false, none⟩ :=
  ⟨by decide,
   exec_blocks_format_substring barrenHost "echo information" "/home" (by decide)⟩

/-- C7: the bare directory query `cd` with no argument reports the
current working directory back with `succeeded = true` and no
`newWorkingDirectory`, for every working directory and host; as it
returns no new directory, repeating it can never change session state. -/
theorem exec_cd_bare (h : Host) (D : String) :
    execute_command h "cd" D = .ok ⟨D, true, none⟩ := rfl

/-- C2 counterexample: `execute_command` can raise to its caller.  On the
non-dangerous input `echo "unclosed` (which contains an unbalanced quote)
the tokenizer `shlex.split` raises `ValueError("No closing quotation")`
outside of any `try`, so no Outcome is produced. -/
theorem exec_raises_on_unclosed_quote :
    execute_command barrenHost "echo \"unclosed" "/home" =
      .error "No closing quotation" := rfl

/-- C2 (amended): for every input that is blocked as dangerous or whose
shell tokenization succeeds, `execute_command` returns exactly one
well-formed Outcome (it does not raise); failure modes on this domain are
captured as `succeeded = false` with a message.  (As stated over all
inputs the claim is false: a non-dangerous command with an unclosed
leading quote makes the ValueError of the tokenizer escape to the caller.) -/
theorem exec_total_when_tokenizable (h : Host) (command D : String)
    (ht : (shlex_split command).isSome = true ∨ is_dangerous_command command = true) :
    (execute_command h command D).isOk = true := by
  unfold execute_command
  split
  · rfl
  next hnd =>
    rcases ht with ht | ht
    · cases hs : shlex_split command with
      | none => rw [hs] at ht; simp at ht
      | some parts =>
        dsimp only
        split
        · rfl
        · split
          · rfl
          · rfl
    · exact absurd ht hnd

theorem exec_total_when_tokenizable_witness :
    (shlex_split "echo hi").isSome = true ∧
    (execute_command barrenHost "echo hi" "/home").isOk = true :=
  ⟨by decide,
   exec_total_when_tokenizable barrenHost "echo hi" "/home" (Or.inl (by decide))⟩

/-- C8: a non-dangerous command whose first token, lowercased, is
`pushd` or `popd` is answered with the "not fully implemented" message,
`succeeded = false` and no `newWorkingDirectory`, for every host (so it
is never delegated to host execution and never changes directory state). -/
theorem exec_pushd_popd_unimplemented (h : Host) (command D v : String)
    (rest : List String)
    (hnd : is_dangerous_command command = false)
    (hs : shlex_split command = some (v :: rest))
    (hv : strLower v = "pushd" ∨ strLower v = "popd") :
    execute_command h command D =
      .ok ⟨"Command " ++ strLower v ++ " not fully implemented.", false, none⟩ := by
  have hdircmd : is_directory_parts (v :: rest) = true := by
    rcases hv with hv | hv <;>
      simp [is_directory_parts, hv, DIRECTORY_COMMANDS]
  have hnotcd : ¬(strLower v = "cd" ∨ strLower v = "chdir") := by
    rcases hv with hv | hv <;> simp [hv]
  simp only [execute_command, hnd, Bool.false_eq_true, if_false, hs,
    hdircmd, if_true, handle_directory_command, List.headD_cons]
  rw [if_neg hnotcd]

theorem exec_pushd_popd_unimplemented_witness :
    execute_command barrenHost "pushd /tmp" "/home" =
      .ok ⟨"Command pushd not fully implemented.", false, none⟩ :=
  exec_pushd_popd_unimplemented barrenHost "pushd /tmp" "/home" "pushd"
    ["/tmp"] (by decide) (by decide) (Or.inl (by decide))

/-- C3: a non-dangerous, non-directory, non-exit command is delegated to
the host: completion with exit code 0 yields `succeeded = true` and the
trimmed standard output as message (even when empty); a nonzero exit
code yields `succeeded = false` with the trimmed standard error prefixed
"Error: "; a timeout yields `succeeded = false` with the fixed 30-second
timeout message and no partial output; a launch failure yields
`succeeded = false` with the generic launch-failure message; in every
case `newWorkingDirectory` is absent. -/
theorem exec_host_execution (h : Host) (command D : String)
    (parts : List String)
    (hnd : is_dangerous_command command = false)
    (hs : shlex_split command = some parts)
    (hdir : is_directory_parts parts = false)
    (hexit : strLower (strTrim command) ≠ "exit")
    (hquit : strLower (strTrim command) ≠ "quit") :
    (∀ out err, h.run command D = .completed 0 out err →
        execute_command h command D = .ok ⟨strTrim out, true, none⟩) ∧
    (∀ rc out err, rc ≠ 0 → h.run command D = .completed rc out err →
        execute_command h command D =
          .ok ⟨"Error: " ++ strTrim err, false, none⟩) ∧
    (h.run command D = .timedOut →
        execute_command h command D =
          .ok ⟨"Command timed out after 30 seconds", false, none⟩) ∧
    (∀ m, h.run command D = .launchFailure m →
        execute_command h command D =
          .ok ⟨"Failed to execute command: " ++ m, false, none⟩) := by
  have key : execute_command h command D =
      .ok (match h.run command D with
        | .completed rc out err =>
          if rc = 0 then ⟨strTrim out, true, none⟩
          else ⟨"Error: " ++ strTrim err, false, none⟩
        | .timedOut =>
          ⟨"Command timed out after 30 seconds", false, none⟩
        | .launchFailure m =>
          ⟨"Failed to execute command: " ++ m, false, none⟩) := by
    have hnotexit : ¬(strLower (strTrim command) = "exit" ∨
        strLower (strTrim command) = "quit") := by
      rintro (hc | hc)
      · exact hexit hc
      · exact hquit hc
    simp only [execute_command, hnd, Bool.false_eq_true, if_false, hs,
      hdir, if_false]
    rw [if_neg hnotexit]
  refine ⟨?_, ?_, ?_, ?_⟩
  · intro out err hrun
    rw [key, hrun]
    simp
  · intro rc out err hrc hrun
    rw [key, hrun]
    simp [hrc]
  · intro hrun
    rw [key, hrun]
  · intro m hrun
    rw [key, hrun]

theorem exec_host_execution_witness :
    execute_command echoHost "echo Hello World" "/home" =
      .ok ⟨"Hello World", true, none⟩ :=
  (exec_host_execution echoHost "echo Hello World" "/home"
      ["echo", "Hello", "World"] (by decide) (by decide) (by decide)
      (by decide) (by decide)).1 "Hello World\n" "" rfl

/-- Dispatch lemma: a non-dangerous command tokenizing to a `cd`/`chdir`
verb with at least one argument reaches the target-resolution branch of
the directory handler. -/
theorem exec_cd_dispatch (h : Host) (command D v : String) (rest : List String)
    (hnd : is_dangerous_command command = false)
    (hs : shlex_split command = some (v :: rest))
    (hv : strLower v = "cd" ∨ strLower v = "chdir")
    (hr : rest ≠ []) :
    execute_command h command D =
      .ok (if h.isDir (resolve_target D (stripQuotes (String.intercalate " " rest))) then
          ⟨"Changed directory to: " ++
              resolve_target D (stripQuotes (String.intercalate " " rest)), true,
            some (resolve_target D (stripQuotes (String.intercalate " " rest)))⟩
        else
          ⟨"The system cannot find the path specified: " ++
              stripQuotes (String.intercalate " " rest), false, none⟩) := by
  have hdircmd : is_directory_parts (v :: rest) = true := by
    rcases hv with hv | hv <;>
      simp [is_directory_parts, hv, DIRECTORY_COMMANDS]
  have hlen : ¬((v :: rest).length = 1) := by
    simpa [List.length_eq_zero] using hr
  simp only [execute_command, hnd, Bool.false_eq_true, if_false, hs,
    hdircmd, if_true, handle_directory_command, List.headD_cons,
    List.tail_cons]
  rw [if_pos hv, if_neg hlen]

/-- C4: for every directory-change command whose argument resolves (used
verbatim when absolute, else joined to the working directory and
lexically normalized) to an existing directory, `execute_command`
returns `succeeded = true`, a confirmation message naming the resolved
path, and `newWorkingDirectory` set to that path; in particular `cd ..`
under a working directory with an existing lexical parent moves to that
parent. -/
theorem exec_cd_existing (h : Host) (command D v : String) (rest : List String)
    (hnd : is_dangerous_command command = false)
    (hs : shlex_split command = some (v :: rest))
    (hv : strLower v = "cd" ∨ strLower v = "chdir")
    (hr : rest ≠ [])
    (hex : h.isDir (resolve_target D (stripQuotes (String.intercalate " " rest))) = true) :
    (execute_command h command D =
      .ok ⟨"Changed directory to: " ++
          resolve_target D (stripQuotes (String.intercalate " " rest)), true,
        some (resolve_target D (stripQuotes (String.intercalate " " rest)))⟩) ∧
    (∀ (h2 : Host) (D2 : String),
      h2.isDir (normpath (pjoin D2 "..")) = true →
      execute_command h2 "cd .." D2 =
        .ok ⟨"Changed directory to: " ++ normpath (pjoin D2 ".."), true,
          some (normpath (pjoin D2 ".."))⟩) := by
  constructor
  · rw [exec_cd_dispatch h command D v rest hnd hs hv hr, if_pos hex]
  · intro h2 D2 hx
    have e1 : stripQuotes (String.intercalate " " ([".."] : List String)) = ".." := by
      decide
    have e2 : resolve_target D2 ".." = normpath (pjoin D2 "..") := by
      simp [resolve_target, show isabs ".." = false from by decide]
    rw [exec_cd_dispatch h2 "cd .." D2 "cd" [".."] (by decide) (by decide)
        (Or.inl (by decide)) (by simp), e1, e2, if_pos hx]

theorem exec_cd_existing_witness :
    execute_command allDirHost "cd .." "/a/b" =
      .ok ⟨"Changed directory to: /a", true, some "/a"⟩ := by
  have := (exec_cd_existing allDirHost "cd .." "/a/b" "cd" [".."]
    (by decide) (by decide) (Or.inl (by decide)) (by simp) (by decide)).1
  exact this

/-- C5: a directory-change command whose resolved target is not an
existing directory is answered with `succeeded = false`, a path-not-found
message naming the original (quote-stripped) argument, and
`newWorkingDirectory` absent. -/
theorem exec_cd_not_found (h : Host) (command D v : String) (rest : List String)
    (hnd : is_dangerous_command command = false)
    (hs : shlex_split command = some (v :: rest))
    (hv : strLower v = "cd" ∨ strLower v = "chdir")
    (hr : rest ≠ [])
    (hex : h.isDir (resolve_target D (stripQuotes (String.intercalate " " rest))) = false) :
    execute_command h command D =
      .ok ⟨"The system cannot find the path specified: " ++
          stripQuotes (String.intercalate " " rest), false, none⟩ := by
  rw [exec_cd_dispatch h command D v rest hnd hs hv hr, if_neg (by simp [hex])]

theorem exec_cd_not_found_witness :
    execute_command barrenHost "cd /path/does/not/exist" "/home" =
      .ok ⟨"The system cannot find the path specified: /path/does/not/exist",
        false, none⟩ := by
  have := exec_cd_not_found barrenHost "cd /path/does/not/exist" "/home" "cd"
    ["/path/does/not/exist"] (by decide) (by decide) (Or.inl (by decide))
    (by simp) (by decide)
  exact this

/-- Evaluation of `String.intercalate` on a singleton list. -/
theorem intercalate_singleton (s a : String) :
    String.intercalate s [a] = a := rfl

/-- Wrapping a string in double quotes does not change the result of
stripping all surrounding quote characters. -/
theorem stripQuotes_wrap (p : String) :
    stripQuotes ("\"" ++ p ++ "\"") = stripQuotes p := by
  unfold stripQuotes
  have h1 : ("\"" ++ p ++ "\"").toList = '"' :: (p.toList ++ ['"']) := rfl
  rw [h1]
  rw [show List.dropWhile isQuoteChar ('"' :: (p.toList ++ ['"'])) =
      List.dropWhile isQuoteChar (p.toList ++ ['"']) from by
    simp [List.dropWhile_cons, isQuoteChar]]
  rw [List.dropWhile_append]
  by_cases he : (p.toList.dropWhile isQuoteChar).isEmpty
  · rw [if_pos he]
    rw [List.isEmpty_iff] at he
    rw [he]
    rfl
  · rw [if_neg he]
    rw [List.isEmpty_iff] at he
    rw [List.reverse_append]
    simp [List.dropWhile_cons, isQuoteChar]

/-- C6: quoting round-trip.  When `cd "p"` tokenizes to the verb plus the
quoted argument and `cd p` tokenizes to the verb plus tokens rejoining to
`p`, the two invocations produce identical Outcomes (same message,
success flag and `newWorkingDirectory`) on every host and working
directory: the quote-aware tokenization followed by joining the
remaining tokens with single spaces and stripping surrounding quote
characters resolves both forms to the same path. -/
theorem exec_cd_quoting_roundtrip (h : Host) (D p : String) (rest : List String)
    (hd1 : is_dangerous_command ("cd \"" ++ p ++ "\"") = false)
    (hd2 : is_dangerous_command ("cd " ++ p) = false)
    (hq : shlex_split ("cd \"" ++ p ++ "\"") = some ["cd", "\"" ++ p ++ "\""])
    (hu : shlex_split ("cd " ++ p) = some ("cd" :: rest))
    (hr : rest ≠ [])
    (hj : String.intercalate " " rest = p) :
    execute_command h ("cd \"" ++ p ++ "\"") D =
      execute_command h ("cd " ++ p) D := by
  rw [exec_cd_dispatch h ("cd \"" ++ p ++ "\"") D "cd" ["\"" ++ p ++ "\""]
      hd1 hq (Or.inl (by decide)) (by simp)]
  rw [exec_cd_dispatch h ("cd " ++ p) D "cd" rest hd2 hu
      (Or.inl (by decide)) hr]
  rw [intercalate_singleton, stripQuotes_wrap, hj]

theorem exec_cd_quoting_roundtrip_witness :
    execute_command allDirHost "cd \"some dir\"" "/base" =
      execute_command allDirHost "cd some dir" "/base" := by
  have := exec_cd_quoting_roundtrip allDirHost "/base" "some dir"
    ["some", "dir"] (by decide) (by decide) (by decide) (by decide)
    (by simp) (by decide)
  exact this

/-- C9: invariant on every Outcome.  Whenever `execute_command` returns
an Outcome carrying a `newWorkingDirectory`, that Outcome also has
`succeeded = true` and the returned path was verified to be an existing
directory by the host `isDir` check; every other branch (blocked,
exit/quit, host execution, timeout, launch failure, not-found,
unimplemented) returns `newWorkingDirectory` absent. -/
theorem exec_newdir_invariant (h : Host) (command D : String) (o : Outcome)
    (p : String)
    (ho : execute_command h command D = .ok o)
    (hp : o.newWorkingDirectory = some p) :
    o.succeeded = true ∧ h.isDir p = true := by
  have handler : ∀ parts : List String,
      (handle_directory_command h parts D).newWorkingDirectory = some p →
      (handle_directory_command h parts D).succeeded = true ∧
        h.isDir p = true := by
    intro parts hh
    dsimp only [handle_directory_command] at hh ⊢
    split_ifs at hh ⊢ with hverb hlen hdir
    all_goals simp_all
  unfold execute_command at ho
  split at ho
  · injection ho with ho
    subst ho
    simp at hp
  · split at ho
    · exact absurd ho (by simp)
    next parts heq =>
      split at ho
      · injection ho with ho
        subst ho
        exact handler parts hp
      · split at ho
        · injection ho with ho
          subst ho
          simp at hp
        · injection ho with ho
          cases hr : h.run command D with
          | completed rc out err =>
            rw [hr] at ho
            dsimp only at ho
            by_cases hrc : rc = 0
            · rw [if_pos hrc] at ho
              subst ho
              simp at hp
            · rw [if_neg hrc] at ho
              subst ho
              simp at hp
          | timedOut =>
            rw [hr] at ho
            dsimp only at ho
            subst ho
            simp at hp
          | launchFailure m =>
            rw [hr] at ho
            dsimp only at ho
            subst ho
            simp at hp

theorem exec_newdir_invariant_witness :
    (Outcome.mk "Changed directory to: /a" true (some "/a")).succeeded = true ∧
    allDirHost.isDir "/a" = true :=
  exec_newdir_invariant allDirHost "cd .." "/a/b"
    ⟨"Changed directory to: /a", true, some "/a"⟩ "/a" rfl rfl
